import Mathlib

/-!
Verification development for the voice-agent orchestrator
(src/agents/orchestrator.py).  The Python code is shallowly embedded:
the registry dictionaries become association lists with Python-dict
semantics (insertion order preserved, assignment replaces in place),
asyncio.Queue becomes a list-backed FIFO, and the conversation loop
becomes an explicit step function driven by a response oracle.
-/

namespace Orch

/-- Agent profile as returned by the signaling authority
(orchestrator.py, ConnectedAgent.__init__ caches id, name, emoji, color;
to_dict returns the profile). -/
structure Profile where
  id : String
  name : String
  emoji : String
  color : String
deriving Repr, DecidableEq

/-- One authenticated agent connection (class ConnectedAgent, lines 37-47).
The websocket handle is abstracted as a numeric connection id. -/
structure ConnectedAgent where
  ws : Nat
  profile : Profile
deriving Repr, DecidableEq

/-- ConnectedAgent.id, line 41. -/
def ConnectedAgent.id (a : ConnectedAgent) : String := a.profile.id

/-- A turn-response frame as read off the wire (lines 229-233 and 312-314).
Absent "text" and "audio" fields are modelled by the empty string, matching
the dict-get defaults at lines 313-314. -/
structure TurnMsg where
  rtype : String
  text : String
  audio : String
deriving Repr, DecidableEq

/-! Python-dict semantics on association lists: insertion order is kept,
assignment to an existing key replaces the value in place, deletion removes
the key.  These model self.agents and self.agent_queues. -/

/-- Keys of a dict in insertion order (list(d.keys())). -/
def dictKeys {α : Type} (l : List (String × α)) : List String := l.map Prod.fst

/-- d.get(k) / k in d lookup. -/
def dictFind {α : Type} (k : String) : List (String × α) → Option α
  | [] => none
  | (k', v) :: rest => if k' = k then some v else dictFind k rest

/-- d[k] = v: replaces in place if the key exists, else appends. -/
def dictInsert {α : Type} (k : String) (v : α) : List (String × α) → List (String × α)
  | [] => [(k, v)]
  | (k', v') :: rest => if k' = k then (k, v) :: rest else (k', v') :: dictInsert k v rest

/-- del d[k]: removes the first binding of the key. -/
def dictErase {α : Type} (k : String) : List (String × α) → List (String × α)
  | [] => []
  | (k', v') :: rest => if k' = k then rest else (k', v') :: dictErase k rest

/-- The agents registry, self.agents : Dict[str, ConnectedAgent] (line 53). -/
abbrev Registry := List (String × ConnectedAgent)

/-- Well-formedness the registry has by construction (line 215 stores the
record under its own profile id): every value is keyed by its id. -/
def regWF (reg : Registry) : Bool :=
  reg.all fun p => p.2.profile.id == p.1

/-- asyncio.Queue() with no maxsize (line 216): an unbounded FIFO.
put appends at the back and always succeeds; there is no capacity bound. -/
structure AQueue where
  items : List TurnMsg
deriving Repr, DecidableEq

/-- Queue.put: appends; never fails, never overwrites (unbounded queue). -/
def AQueue.put (q : AQueue) (m : TurnMsg) : AQueue := ⟨q.items ++ [m]⟩

/-- Number of responses currently pending in the queue. -/
def AQueue.pending (q : AQueue) : Nat := q.items.length

/-- Inbound-message handling on a participant connection, lines 228-233:
a frame of type turn_response is put on that participant queue when the id
is still registered in agent_queues; every other frame is ignored. -/
def handleAgentMessage (queues : List (String × AQueue)) (aid : String) (m : TurnMsg) :
    List (String × AQueue) :=
  if m.rtype = "turn_response" then
    match dictFind aid queues with
    | some q => dictInsert aid (q.put m) queues
    | none => queues
  else queues

/-- Registry plus the per-participant queues (self.agents and
self.agent_queues, lines 53-54). -/
structure RegState where
  agents : Registry
  queues : List (String × AQueue)
deriving Repr, DecidableEq

/-- Registration of an authenticated connection, lines 214-216:
the dict assignments replace any existing entry with the same id and
allocate a fresh (empty) queue under that id. -/
def addParticipant (s : RegState) (a : ConnectedAgent) : RegState :=
  { agents := dictInsert a.id a s.agents,
    queues := dictInsert a.id ⟨[]⟩ s.queues }

/-- The finally block of handle_agent for the connection that registered
record a, lines 236-240: it deletes the registry and queue entries keyed by
the id of its own record, whichever record is stored there now. -/
def teardownParticipant (s : RegState) (a : ConnectedAgent) : RegState :=
  { agents := if (dictFind a.id s.agents).isSome then dictErase a.id s.agents else s.agents,
    queues := if (dictFind a.id s.queues).isSome then dictErase a.id s.queues else s.queues }

/-! The turn wait.  Line 308 is
await asyncio.wait_for(self.agent_queues[agent.id].get(), timeout=60.0).
The coroutine holds a direct reference to the Queue object, so deleting the
dict entry in the disconnect path (lines 239-240) does not resolve the
pending get; and after the deletion the put guard at line 232 drops any
late response.  The wait therefore resolves only through a put that reaches
the queue object before the removal, or through expiry of the timeout. -/

/-- Outcome of the wait for a turn response.  The abandoned constructor is
the resolution the specification demands on disconnect; the code model
below never produces it. -/
inductive WaitResult where
  | response (m : TurnMsg)
  | timedOut
  | abandoned
deriving Repr, DecidableEq

/-- The timeout of the wait at line 308, in seconds. -/
def TURN_TIMEOUT : Nat := 60

/-- Model of the wait at line 308.  putAt gives the arrival time of the
(single, per protocol) response put for this turn, if any; removedAt gives
the time the participant teardown deleted the queue entry, if it happened
during the wait.  Returns the outcome and the time at which the wait
resolves, both relative to the start of the wait. -/
def waitForTurn (putAt : Option (Nat × TurnMsg)) (removedAt : Option Nat) :
    WaitResult × Nat :=
  match putAt with
  | some (t, m) =>
    match removedAt with
    | none =>
      if t ≤ TURN_TIMEOUT then (WaitResult.response m, t)
      else (WaitResult.timedOut, TURN_TIMEOUT)
    | some r =>
      if t ≤ TURN_TIMEOUT ∧ t < r then (WaitResult.response m, t)
      else (WaitResult.timedOut, TURN_TIMEOUT)
  | none => (WaitResult.timedOut, TURN_TIMEOUT)

/-! Broadcast, lines 127-147.  The registry-empty early return happens
before serialization; json.dumps runs exactly once otherwise; each gather
call uses return_exceptions=True, so each per-connection send is attempted
and its failure is captured as a value instead of raised. -/

/-- One send attempt on a connection: succeeds or raises, as dictated by
the sendOk environment. -/
def sendResult (sendOk : Nat → Bool) (c : Nat) : Except String Unit :=
  if sendOk c then Except.ok () else Except.error "ConnectionClosedError"

/-- broadcast (lines 127-147).  The result carries the number of times the
event was serialized and the list of attempted sends with their captured
outcomes; the Except layer records whether anything escaped broadcast
itself (it never does, because gather is called with
return_exceptions=True). -/
def broadcast (frontends agentConns : List Nat) (sendOk : Nat → Bool) :
    Except String (Nat × List (Nat × Except String Unit)) :=
  if frontends.isEmpty && agentConns.isEmpty then Except.ok (0, [])
  else Except.ok (1,
    (frontends.map fun c => (c, sendResult sendOk c)) ++
    (agentConns.map fun c => (c, sendResult sendOk c)))

/-! The conversation loop, run_conversation_loop (lines 252-353).
The loop body is embedded as a step function on an explicit loop state;
the arrival (or timeout) of each turn response is given by an oracle
indexed by the turn counter, since the loop waits exactly once per counter
value.  The model covers the registry as it stands at each iteration; a
schedule of registries (one per iteration of the while loop) stands in for
its concurrent mutation by the connection handlers between iterations
(there is no await between the while test and the selection, so one
registry per iteration is faithful). -/

/-- Broadcast and direct-send events emitted by the loop, carrying the
fields the code puts in each frame (room_id, a process-wide constant, is
omitted).  A JSON null topic is modelled as none. -/
inductive Event where
  | agentJoined (p : Profile)
  | agentLeft (p : Profile)
  | conversationStart (topic : String) (maxTurns : Nat)
  | agentThinking (p : Profile)
  | turnStart (turn : Nat) (speaker : Profile)
  | turnRequest (toAgent : String) (context : String) (turn : Nat) (topic : Option String)
  | agentResponse (p : Profile) (text : String) (turn : Nat)
  | agentAudio (p : Profile) (audio : String) (audioSize : Nat) (turn : Nat)
  | conversationEnd (totalTurns : Nat)
deriving Repr, DecidableEq

/-- The mutable fields of the orchestrator the loop reads and writes
(lines 58-61, 254-255): turn counter, configured maximum, topic, the
rolling context, and the transcript. -/
structure LoopState where
  turn_count : Nat
  max_turns : Nat
  topic : String
  current_context : String
  history : List (String × String)
deriving Repr, DecidableEq

/-- State of the loop right after the prologue (lines 254-266): counter
reset to zero and the context initialized to the formatted topic string
(the Python format string produces the text Topic colon space topic). -/
def initialLoopState (topic : String) (maxTurns : Nat) : LoopState :=
  { turn_count := 0, max_turns := maxTurns, topic := topic,
    current_context := "Topic: " ++ topic, history := [] }

/-- The loop body once a present participant has been selected,
lines 278-345: broadcast thinking and turn_start, send the direct
turn_request, then either consume the response (lines 312-337) or fall
through on timeout (lines 339-342); the counter is incremented either way
(line 344).  An empty audio string is falsy in Python, so the agent_audio
broadcast at lines 329-337 fires only for a nonempty payload. -/
def doTurn (a : ConnectedAgent) (resp : Option TurnMsg) (st : LoopState) :
    LoopState × List Event :=
  let evs0 : List Event :=
    [Event.agentThinking a.profile,
     Event.turnStart (st.turn_count + 1) a.profile,
     Event.turnRequest a.profile.id st.current_context st.turn_count
       (if st.turn_count = 0 then some st.topic else none)]
  match resp with
  | some m =>
    if m.rtype = "turn_response" then
      let st' : LoopState :=
        { st with current_context := m.text,
                  history := st.history ++ [(a.profile.name, m.text)],
                  turn_count := st.turn_count + 1 }
      let evs1 := evs0 ++ [Event.agentResponse a.profile m.text (st.turn_count + 1)]
      if m.audio = "" then (st', evs1)
      else (st', evs1 ++ [Event.agentAudio a.profile m.audio m.audio.length (st.turn_count + 1)])
    else ({ st with turn_count := st.turn_count + 1 }, evs0)
  | none => ({ st with turn_count := st.turn_count + 1 }, evs0)

/-- Result of one iteration of the while loop. -/
inductive StepRes where
  | exit
  | crash
  | retry (newIds : List String)
  | turn (st : LoopState) (evs : List Event)
deriving Repr, DecidableEq

/-- One iteration of the while loop, lines 268-275 plus the body:
test the condition (line 268), select the id at position
turn_count mod length of the snapshot (line 269); if the snapshot is empty
while the registry is not, the Python modulo raises (crash); if the
selected id has disconnected, recompute the order from the registry and
continue without incrementing the counter (lines 272-275); otherwise run
the turn body. -/
def loopStep (reg : Registry) (ids : List String) (st : LoopState)
    (resp : Option TurnMsg) : StepRes :=
  if st.turn_count < st.max_turns then
    if reg = [] then StepRes.exit
    else
      match ids[st.turn_count % ids.length]? with
      | none => StepRes.crash
      | some aid =>
        match dictFind aid reg with
        | none => StepRes.retry (dictKeys reg)
        | some a => StepRes.turn (doTurn a resp st).1 (doTurn a resp st).2
  else StepRes.exit

/-- Result of running the loop: final state, emitted events, and whether
the while loop exited through its own condition (finished = true) rather
than through a crash or exhaustion of the modelled schedule. -/
structure RunResult where
  state : LoopState
  events : List Event
  finished : Bool
deriving Repr, DecidableEq

/-- The while loop, lines 268-352, driven by one registry snapshot per
iteration.  On normal exit the epilogue broadcasts conversation_end with
the final counter (lines 347-352). -/
def runLoopS : List Registry → List String → LoopState → (Nat → Option TurnMsg) → RunResult
  | [], _, st, _ => ⟨st, [], false⟩
  | reg :: regs, ids, st, oracle =>
    match loopStep reg ids st (oracle st.turn_count) with
    | StepRes.exit => ⟨st, [Event.conversationEnd st.turn_count], true⟩
    | StepRes.crash => ⟨st, [], false⟩
    | StepRes.retry ids' => runLoopS regs ids' st oracle
    | StepRes.turn st' evs =>
      let r := runLoopS regs ids st' oracle
      ⟨r.state, evs ++ r.events, r.finished⟩

/-- Specification function for the rolling context: the value held in
current_context when the loop is about to issue turn t.  It follows the
initialization at line 266 and the update at line 317: the text of the
most recent response of type turn_response, or the formatted topic string
while no turn has succeeded yet. -/
def contextBefore (topic : String) (oracle : Nat → Option TurnMsg) : Nat → String
  | 0 => "Topic: " ++ topic
  | t + 1 =>
    match oracle t with
    | some m => if m.rtype = "turn_response" then m.text else contextBefore topic oracle t
    | none => contextBefore topic oracle t

/-- Events counted by the turn_start tally. -/
def Event.isTurnStart : Event → Bool
  | Event.turnStart _ _ => true
  | _ => false

/-- Events counted by the agent_response (turn result) tally. -/
def Event.isAgentResponse : Event → Bool
  | Event.agentResponse _ _ _ => true
  | _ => false

/-- Number of turn_start broadcasts in an event list. -/
def countTurnStarts (evs : List Event) : Nat := evs.countP Event.isTurnStart

/-- Number of agent_response broadcasts in an event list. -/
def countAgentResponses (evs : List Event) : Nat := evs.countP Event.isAgentResponse

/-! Session lifecycle.  handle_frontend (lines 180-191) processes a
start_conversation frame; run_conversation_loop begins by setting
conversation_active and broadcasting conversation_start (lines 254-263)
and ends by clearing it (lines 347-352). -/

/-- The lifecycle-relevant shared fields of the orchestrator
(lines 52-60), together with the event-loop bookkeeping needed to model
task scheduling faithfully: pendingLoops counts conversation-loop tasks
that create_task (line 186) has scheduled but that have not yet received
control from the event loop, and runningLoops counts loop tasks that are
past their prologue and not yet finished.  The program stores no such
counters; they model the asyncio task set restricted to
run_conversation_loop tasks. -/
structure SysState where
  agents : Registry
  conversation_active : Bool
  topic : String
  max_turns : Nat
  turn_count : Nat
  pendingLoops : Nat
  runningLoops : Nat
deriving Repr, DecidableEq

/-- A start_conversation frame; absent fields leave the current values in
place via the dict-get defaults at lines 183-184. -/
structure StartRequest where
  topic : Option String
  max_turns : Option Nat
deriving Repr, DecidableEq

/-- Lifecycle events observable at this level. -/
inductive SysEvt where
  | conversationStart (topic : String) (maxTurns : Nat)
  | errorNoAgents
  | conversationEnd (totalTurns : Nat)
deriving Repr, DecidableEq

/-- Handling of one start_conversation frame, lines 182-191, exactly as
the handler runs it: topic and max_turns are overwritten first (lines
183-184, also when the request is then rejected); then, if
conversation_active is false and at least one agent is registered,
create_task merely SCHEDULES a new conversation-loop task.  Scheduling
does not run the task and does not touch conversation_active: the flag is
set only inside the task, at line 254, when the event loop first gives it
control.  Consequently every frame the handler processes before a
scheduled task first runs (for instance a second frame already buffered
on the same connection, which recv returns without yielding) still
observes the flag false.  If no agent is registered, an error frame is
sent instead. -/
def handleStartFrame (s : SysState) (req : StartRequest) : SysState × List SysEvt :=
  let s' : SysState :=
    { s with topic := req.topic.getD s.topic, max_turns := req.max_turns.getD s.max_turns }
  if !s'.conversation_active && decide (1 ≤ s'.agents.length) then
    ({ s' with pendingLoops := s'.pendingLoops + 1 }, [])
  else if s'.agents.length < 1 then (s', [SysEvt.errorNoAgents])
  else (s', [])

/-- The prologue of a conversation-loop task, lines 254-263, run when the
event loop first gives the scheduled task control: it sets
conversation_active (unconditionally), resets the turn counter and
broadcasts conversation_start with the topic and max_turns as they stand
at that moment. -/
def loopPrologue (s : SysState) : SysState × List SysEvt :=
  ({ s with conversation_active := true, turn_count := 0,
            pendingLoops := s.pendingLoops - 1, runningLoops := s.runningLoops + 1 },
   [SysEvt.conversationStart s.topic s.max_turns])

/-- The loop epilogue, lines 347-352: clears the flag and broadcasts
conversation_end with the final counter. -/
def endConversation (s : SysState) : SysState × List SysEvt :=
  ({ s with conversation_active := false, runningLoops := s.runningLoops - 1 },
   [SysEvt.conversationEnd s.turn_count])

/-- One schedulable lifecycle step: the frontend handler processing a
buffered start frame, the event loop dispatching the prologue of a
scheduled loop task, or a running loop finishing.  The two dispatch
actions are guarded: when no pending (respectively running) task exists
the event loop has nothing to dispatch and the action does nothing. -/
inductive SysAction where
  | recvStart (req : StartRequest)
  | runPrologue
  | finishLoop
deriving Repr, DecidableEq

/-- Apply one scheduled action to the lifecycle state. -/
def sysStep (s : SysState) : SysAction → SysState × List SysEvt
  | SysAction.recvStart req => handleStartFrame s req
  | SysAction.runPrologue =>
    if s.pendingLoops = 0 then (s, []) else loopPrologue s
  | SysAction.finishLoop =>
    if s.runningLoops = 0 then (s, []) else endConversation s

/-- Run a schedule of actions, collecting the broadcast events in order. -/
def sysRun (s : SysState) : List SysAction → SysState × List SysEvt
  | [] => (s, [])
  | act :: rest =>
    let r := sysStep s act
    let r' := sysRun r.1 rest
    (r'.1, r.2 ++ r'.2)

/-- The while-loop condition at line 268, which reads self.max_turns and
self.agents live from the shared state on every iteration. -/
def loopGuard (s : SysState) : Bool :=
  decide (s.turn_count < s.max_turns) && !s.agents.isEmpty

/-- Events counted by the conversation_start tally. -/
def SysEvt.isConversationStart : SysEvt → Bool
  | SysEvt.conversationStart _ _ => true
  | _ => false

/-- Number of conversation_start broadcasts in a lifecycle event list. -/
def countConversationStarts (evs : List SysEvt) : Nat :=
  evs.countP SysEvt.isConversationStart

/-! Concrete fixtures used by counterexamples and witnesses. -/

/-- A concrete profile with id a. -/
def profA : Profile := ⟨"a", "Scout", "fox", "#111111"⟩

/-- A concrete profile with id b. -/
def profB : Profile := ⟨"b", "Sage", "owl", "#222222"⟩

/-- A concrete connected agent for profA. -/
def agentA : ConnectedAgent := ⟨1, profA⟩

/-- A concrete connected agent for profB. -/
def agentB : ConnectedAgent := ⟨2, profB⟩

/-- A concrete two-agent registry in join order. -/
def regW : Registry := [("a", agentA), ("b", agentB)]

/-- A concrete successful turn response with an audio payload. -/
def msgW : TurnMsg := ⟨"turn_response", "hello", "QUJD"⟩

/-- An oracle that answers every turn with msgW. -/
def oracleW : Nat → Option TurnMsg := fun _ => some msgW

/-- A concrete profile shared by two connections of the same identity. -/
def profX : Profile := ⟨"x", "Twin", "cat", "#333333"⟩

/-- The older connection of identity x. -/
def connOldX : ConnectedAgent := ⟨1, profX⟩

/-- The newer (reconnected) connection of identity x. -/
def connNewX : ConnectedAgent := ⟨2, profX⟩

/-- The empty registry-plus-queues state. -/
def regState0 : RegState := ⟨[], []⟩

/-- A first concrete turn response. -/
def msgR1 : TurnMsg := ⟨"turn_response", "one", ""⟩

/-- A second concrete turn response. -/
def msgR2 : TurnMsg := ⟨"turn_response", "two", ""⟩

/-- A concrete lifecycle state with an Active session in progress: one
loop task is running, none pending. -/
def sysW : SysState := ⟨regW, true, "old", 20, 5, 0, 1⟩

/-- A concrete start_conversation request carrying both fields. -/
def reqW : StartRequest := ⟨some "new", some 3⟩

/-- A concrete Idle lifecycle state with two registered agents. -/
def sysIdle : SysState := ⟨regW, false, "t0", 20, 0, 0, 0⟩

/-- The double-start schedule: two start frames buffered on one frontend
connection are processed back-to-back before the event loop runs the task
the first frame created (recv returns already-buffered frames without
yielding to the event loop), and afterwards the two scheduled loop tasks
run their prologues in turn. -/
def doubleStartTrace : List SysAction :=
  [SysAction.recvStart ⟨some "T", some 2⟩, SysAction.recvStart ⟨some "T", some 2⟩,
   SysAction.runPrologue, SysAction.runPrologue]

/-! Helper lemmas about the dict embedding. -/

theorem dictFind_some_of_mem_keys {α : Type} (k : String) (l : List (String × α))
    (h : k ∈ dictKeys l) : ∃ v, dictFind k l = some v := by
  induction l with
  | nil => simp [dictKeys] at h
  | cons p rest ih =>
    rcases p with ⟨k', v'⟩
    by_cases hk : k' = k
    · exact ⟨v', by simp [dictFind, hk]⟩
    · have hmem : k ∈ dictKeys rest := by
        simp only [dictKeys, List.map_cons, List.mem_cons] at h
        rcases h with h | h
        · exact absurd h.symm hk
        · exact h
      rcases ih hmem with ⟨v, hv⟩
      exact ⟨v, by simp [dictFind, hk, hv]⟩

theorem regWF_id_eq (reg : Registry) (k : String) (a : ConnectedAgent)
    (hwf : regWF reg = true) (hfind : dictFind k reg = some a) : a.profile.id = k := by
  induction reg with
  | nil => simp [dictFind] at hfind
  | cons p rest ih =>
    rcases p with ⟨k', v'⟩
    simp only [regWF, List.all_cons, Bool.and_eq_true, beq_iff_eq] at hwf
    by_cases hk : k' = k
    · simp only [dictFind, if_pos hk] at hfind
      cases hfind
      rw [hwf.1, hk]
    · simp only [dictFind, if_neg hk] at hfind
      exact ih hwf.2 hfind

theorem dictFind_insert_self {α : Type} (k : String) (v : α) (l : List (String × α)) :
    dictFind k (dictInsert k v l) = some v := by
  induction l with
  | nil => simp [dictInsert, dictFind]
  | cons p rest ih =>
    rcases p with ⟨k', v'⟩
    by_cases hk : k' = k
    · simp [dictInsert, hk, dictFind]
    · simp [dictInsert, hk, dictFind, ih]

theorem mem_dictKeys_insert {α : Type} (x k : String) (v : α) (l : List (String × α)) :
    x ∈ dictKeys (dictInsert k v l) ↔ x = k ∨ x ∈ dictKeys l := by
  induction l with
  | nil => simp [dictInsert, dictKeys]
  | cons p rest ih =>
    rcases p with ⟨k', v'⟩
    by_cases hk : k' = k
    · subst hk
      simp [dictInsert, dictKeys]
    · simp [dictInsert, hk, dictKeys] at ih ⊢
      tauto

theorem nodup_dictKeys_insert {α : Type} (k : String) (v : α) (l : List (String × α))
    (h : (dictKeys l).Nodup) : (dictKeys (dictInsert k v l)).Nodup := by
  induction l with
  | nil => simp [dictInsert, dictKeys]
  | cons p rest ih =>
    rcases p with ⟨k', v'⟩
    simp only [dictKeys, List.map_cons, List.nodup_cons] at h
    by_cases hk : k' = k
    · subst hk
      have heq : dictInsert k' v ((k', v') :: rest) = (k', v) :: rest := by
        simp [dictInsert]
      rw [heq]
      simp only [dictKeys, List.map_cons, List.nodup_cons]
      exact h
    · simp only [dictInsert, if_neg hk, dictKeys, List.map_cons, List.nodup_cons]
      constructor
      · intro hmem
        have hmem2 : k' ∈ dictKeys (dictInsert k v rest) := hmem
        rcases (mem_dictKeys_insert k' k v rest).mp hmem2 with h1 | h1
        · exact hk h1
        · exact h.1 h1
      · exact ih h.2

theorem mem_dictKeys_of_mem_erase {α : Type} (x k : String) (l : List (String × α))
    (h : x ∈ dictKeys (dictErase k l)) : x ∈ dictKeys l := by
  induction l with
  | nil => simpa [dictErase] using h
  | cons p rest ih =>
    rcases p with ⟨k', v'⟩
    by_cases hk : k' = k
    · simp only [dictErase, if_pos hk] at h
      simp only [dictKeys, List.map_cons, List.mem_cons]
      exact Or.inr h
    · simp only [dictErase, if_neg hk, dictKeys, List.map_cons, List.mem_cons] at h ⊢
      rcases h with h | h
      · exact Or.inl h
      · exact Or.inr (ih h)

theorem nodup_dictKeys_erase {α : Type} (k : String) (l : List (String × α))
    (h : (dictKeys l).Nodup) : (dictKeys (dictErase k l)).Nodup := by
  induction l with
  | nil => simpa [dictErase] using h
  | cons p rest ih =>
    rcases p with ⟨k', v'⟩
    simp only [dictKeys, List.map_cons, List.nodup_cons] at h
    by_cases hk : k' = k
    · simpa [dictErase, hk] using h.2
    · simp only [dictErase, if_neg hk, dictKeys, List.map_cons, List.nodup_cons]
      refine ⟨fun hmem => h.1 (mem_dictKeys_of_mem_erase k' k rest hmem), ih h.2⟩

theorem dictFind_eq_none_of_not_mem {α : Type} (k : String) (l : List (String × α))
    (h : k ∉ dictKeys l) : dictFind k l = none := by
  induction l with
  | nil => rfl
  | cons p rest ih =>
    rcases p with ⟨k', v'⟩
    simp only [dictKeys, List.map_cons, List.mem_cons] at h
    push_neg at h
    have hne : ¬ (k' = k) := fun hkk => h.1 hkk.symm
    simp only [dictFind, if_neg hne]
    exact ih h.2

theorem dictFind_erase_self {α : Type} (k : String) (l : List (String × α))
    (h : (dictKeys l).Nodup) : dictFind k (dictErase k l) = none := by
  induction l with
  | nil => rfl
  | cons p rest ih =>
    rcases p with ⟨k', v'⟩
    simp only [dictKeys, List.map_cons, List.nodup_cons] at h
    by_cases hk : k' = k
    · simp only [dictErase, if_pos hk]
      exact dictFind_eq_none_of_not_mem k rest (hk ▸ h.1)
    · simp only [dictErase, if_neg hk, dictFind, if_neg hk]
      exact ih h.2

/-! Helper lemmas about one loop iteration. -/

theorem doTurn_turn_count (a : ConnectedAgent) (resp : Option TurnMsg) (st : LoopState) :
    (doTurn a resp st).1.turn_count = st.turn_count + 1 := by
  cases resp with
  | none => simp [doTurn]
  | some m =>
    by_cases hr : m.rtype = "turn_response"
    · by_cases ha : m.audio = "" <;> simp [doTurn, hr, ha]
    · simp [doTurn, hr]

theorem doTurn_max_turns (a : ConnectedAgent) (resp : Option TurnMsg) (st : LoopState) :
    (doTurn a resp st).1.max_turns = st.max_turns := by
  cases resp with
  | none => simp [doTurn]
  | some m =>
    by_cases hr : m.rtype = "turn_response"
    · by_cases ha : m.audio = "" <;> simp [doTurn, hr, ha]
    · simp [doTurn, hr]

theorem doTurn_topic (a : ConnectedAgent) (resp : Option TurnMsg) (st : LoopState) :
    (doTurn a resp st).1.topic = st.topic := by
  cases resp with
  | none => simp [doTurn]
  | some m =>
    by_cases hr : m.rtype = "turn_response"
    · by_cases ha : m.audio = "" <;> simp [doTurn, hr, ha]
    · simp [doTurn, hr]

theorem doTurn_countTurnStarts (a : ConnectedAgent) (resp : Option TurnMsg) (st : LoopState) :
    countTurnStarts (doTurn a resp st).2 = 1 := by
  cases resp with
  | none => simp [doTurn, countTurnStarts, Event.isTurnStart]
  | some m =>
    by_cases hr : m.rtype = "turn_response"
    · by_cases ha : m.audio = "" <;>
        simp [doTurn, hr, ha, countTurnStarts, List.countP_append, List.countP_cons,
          Event.isTurnStart]
    · simp [doTurn, hr, countTurnStarts, Event.isTurnStart]

theorem doTurn_countAgentResponses (a : ConnectedAgent) (resp : Option TurnMsg)
    (st : LoopState) : countAgentResponses (doTurn a resp st).2 ≤ 1 := by
  cases resp with
  | none => simp [doTurn, countAgentResponses, Event.isAgentResponse]
  | some m =>
    by_cases hr : m.rtype = "turn_response"
    · by_cases ha : m.audio = "" <;>
        simp [doTurn, hr, ha, countAgentResponses, List.countP_append, List.countP_cons,
          Event.isAgentResponse]
    · simp [doTurn, hr, countAgentResponses, Event.isAgentResponse]

theorem doTurn_turnRequest_inv (a : ConnectedAgent) (resp : Option TurnMsg) (st : LoopState)
    (aid c : String) (t : Nat) (tp : Option String)
    (h : Event.turnRequest aid c t tp ∈ (doTurn a resp st).2) :
    aid = a.profile.id ∧ c = st.current_context ∧ t = st.turn_count ∧
    tp = (if st.turn_count = 0 then some st.topic else none) := by
  cases resp with
  | none =>
    simp [doTurn] at h
    tauto
  | some m =>
    by_cases hr : m.rtype = "turn_response"
    · by_cases ha : m.audio = "" <;> · simp [doTurn, hr, ha] at h; tauto
    · simp [doTurn, hr] at h
      tauto

theorem doTurn_agentAudio_inv (a : ConnectedAgent) (resp : Option TurnMsg) (st : LoopState)
    (p : Profile) (au : String) (sz tn : Nat)
    (h : Event.agentAudio p au sz tn ∈ (doTurn a resp st).2) :
    tn = st.turn_count + 1 ∧ ∃ m, resp = some m ∧ m.rtype = "turn_response" ∧
      ¬ m.audio = "" ∧ p = a.profile ∧ au = m.audio ∧ sz = m.audio.length ∧
      Event.agentResponse a.profile m.text (st.turn_count + 1) ∈ (doTurn a resp st).2 := by
  cases resp with
  | none => simp [doTurn] at h
  | some m =>
    by_cases hr : m.rtype = "turn_response"
    · by_cases ha : m.audio = ""
      · simp [doTurn, hr, ha] at h
      · simp [doTurn, hr, ha] at h
        exact ⟨h.2.2.2, m, rfl, hr, ha, h.1, h.2.1, h.2.2.1, by simp [doTurn, hr, ha]⟩
    · simp [doTurn, hr] at h

theorem doTurn_emits_audio (a : ConnectedAgent) (m : TurnMsg) (st : LoopState)
    (hr : m.rtype = "turn_response") (ha : ¬ m.audio = "") :
    Event.agentAudio a.profile m.audio m.audio.length (st.turn_count + 1)
      ∈ (doTurn a (some m) st).2 := by
  simp [doTurn, hr, ha]

theorem doTurn_context_update (a : ConnectedAgent) (st : LoopState) (topic : String)
    (oracle : Nat → Option TurnMsg)
    (hctx : st.current_context = contextBefore topic oracle st.turn_count) :
    (doTurn a (oracle st.turn_count) st).1.current_context
      = contextBefore topic oracle (st.turn_count + 1) := by
  cases ho : oracle st.turn_count with
  | none => simp [doTurn, contextBefore, ho, hctx]
  | some m =>
    by_cases hr : m.rtype = "turn_response"
    · by_cases ha : m.audio = "" <;> simp [doTurn, contextBefore, ho, hr, ha]
    · simp [doTurn, contextBefore, ho, hr, hctx]

theorem loopStep_eq_turn (reg : Registry) (ids : List String) (st : LoopState)
    (resp : Option TurnMsg) (aid : String) (a : ConnectedAgent)
    (hlt : st.turn_count < st.max_turns) (hne : reg ≠ [])
    (hget : ids[st.turn_count % ids.length]? = some aid)
    (hfind : dictFind aid reg = some a) :
    loopStep reg ids st resp = StepRes.turn (doTurn a resp st).1 (doTurn a resp st).2 := by
  simp [loopStep, hlt, hne, hget, hfind]

theorem loopStep_turn_inv (reg : Registry) (ids : List String) (st : LoopState)
    (resp : Option TurnMsg) (st' : LoopState) (evs : List Event)
    (h : loopStep reg ids st resp = StepRes.turn st' evs) :
    st.turn_count < st.max_turns ∧ reg ≠ [] ∧
    ∃ aid a, ids[st.turn_count % ids.length]? = some aid ∧
      dictFind aid reg = some a ∧
      st' = (doTurn a resp st).1 ∧ evs = (doTurn a resp st).2 := by
  by_cases h1 : st.turn_count < st.max_turns
  · by_cases h2 : reg = []
    · simp [loopStep, h1, h2] at h
    · cases hget : ids[st.turn_count % ids.length]? with
      | none => simp [loopStep, h1, h2, hget] at h
      | some aid =>
        cases hfind : dictFind aid reg with
        | none => simp [loopStep, h1, h2, hget, hfind] at h
        | some a =>
          simp [loopStep, h1, h2, hget, hfind] at h
          exact ⟨h1, h2, aid, a, rfl, hfind, h.1.symm, h.2.symm⟩
  · simp [loopStep, h1] at h

theorem loopStep_exit_inv (reg : Registry) (ids : List String) (st : LoopState)
    (resp : Option TurnMsg) (h : loopStep reg ids st resp = StepRes.exit) :
    ¬ st.turn_count < st.max_turns ∨ reg = [] := by
  by_cases h1 : st.turn_count < st.max_turns
  · by_cases h2 : reg = []
    · exact Or.inr h2
    · cases hget : ids[st.turn_count % ids.length]? with
      | none => simp [loopStep, h1, h2, hget] at h
      | some aid =>
        cases hfind : dictFind aid reg with
        | none => simp [loopStep, h1, h2, hget, hfind] at h
        | some a => simp [loopStep, h1, h2, hget, hfind] at h
  · exact Or.inl h1

theorem runLoopS_nil (ids : List String) (st : LoopState) (oracle : Nat → Option TurnMsg) :
    runLoopS [] ids st oracle = ⟨st, [], false⟩ := rfl

theorem runLoopS_cons_exit (reg : Registry) (regs : List Registry) (ids : List String)
    (st : LoopState) (oracle : Nat → Option TurnMsg)
    (h : loopStep reg ids st (oracle st.turn_count) = StepRes.exit) :
    runLoopS (reg :: regs) ids st oracle
      = ⟨st, [Event.conversationEnd st.turn_count], true⟩ := by
  simp only [runLoopS]
  rw [h]

theorem runLoopS_cons_crash (reg : Registry) (regs : List Registry) (ids : List String)
    (st : LoopState) (oracle : Nat → Option TurnMsg)
    (h : loopStep reg ids st (oracle st.turn_count) = StepRes.crash) :
    runLoopS (reg :: regs) ids st oracle = ⟨st, [], false⟩ := by
  simp only [runLoopS]
  rw [h]

theorem runLoopS_cons_retry (reg : Registry) (regs : List Registry) (ids ids' : List String)
    (st : LoopState) (oracle : Nat → Option TurnMsg)
    (h : loopStep reg ids st (oracle st.turn_count) = StepRes.retry ids') :
    runLoopS (reg :: regs) ids st oracle = runLoopS regs ids' st oracle := by
  simp only [runLoopS]
  rw [h]

theorem runLoopS_cons_turn (reg : Registry) (regs : List Registry) (ids : List String)
    (st st' : LoopState) (evs : List Event) (oracle : Nat → Option TurnMsg)
    (h : loopStep reg ids st (oracle st.turn_count) = StepRes.turn st' evs) :
    runLoopS (reg :: regs) ids st oracle
      = ⟨(runLoopS regs ids st' oracle).state, evs ++ (runLoopS regs ids st' oracle).events,
         (runLoopS regs ids st' oracle).finished⟩ := by
  simp only [runLoopS]
  rw [h]

theorem runLoopS_cons_turn_events (reg : Registry) (regs : List Registry) (ids : List String)
    (st st' : LoopState) (evs : List Event) (oracle : Nat → Option TurnMsg)
    (h : loopStep reg ids st (oracle st.turn_count) = StepRes.turn st' evs) :
    (runLoopS (reg :: regs) ids st oracle).events
      = evs ++ (runLoopS regs ids st' oracle).events := by
  rw [runLoopS_cons_turn reg regs ids st st' evs oracle h]

theorem runLoopS_cons_turn_finished (reg : Registry) (regs : List Registry)
    (ids : List String) (st st' : LoopState) (evs : List Event)
    (oracle : Nat → Option TurnMsg)
    (h : loopStep reg ids st (oracle st.turn_count) = StepRes.turn st' evs) :
    (runLoopS (reg :: regs) ids st oracle).finished
      = (runLoopS regs ids st' oracle).finished := by
  rw [runLoopS_cons_turn reg regs ids st st' evs oracle h]

theorem loopStep_retry_inv (reg : Registry) (ids : List String) (st : LoopState)
    (resp : Option TurnMsg) (ids' : List String)
    (h : loopStep reg ids st resp = StepRes.retry ids') :
    st.turn_count < st.max_turns ∧ reg ≠ [] ∧ ids' = dictKeys reg ∧
    ∃ aid, ids[st.turn_count % ids.length]? = some aid ∧ dictFind aid reg = none := by
  by_cases h1 : st.turn_count < st.max_turns
  · by_cases h2 : reg = []
    · simp [loopStep, h1, h2] at h
    · cases hget : ids[st.turn_count % ids.length]? with
      | none => simp [loopStep, h1, h2, hget] at h
      | some aid =>
        cases hfind : dictFind aid reg with
        | none =>
          simp [loopStep, h1, h2, hget, hfind] at h
          exact ⟨h1, h2, h.symm, aid, rfl, hfind⟩
        | some a => simp [loopStep, h1, h2, hget, hfind] at h
  · simp [loopStep, h1] at h

theorem mem_of_getElemOpt {α : Type} {l : List α} {n : Nat} {a : α}
    (h : l[n]? = some a) : a ∈ l := by
  apply List.get?_mem (n := n)
  rw [List.get?_eq_getElem?]
  exact h

/-! The main run-level lemmas by induction over the registry schedule. -/

theorem runLoopS_counts (regs : List Registry) : ∀ (ids : List String) (st : LoopState)
    (oracle : Nat → Option TurnMsg),
    (∀ reg ∈ regs, reg ≠ []) → st.turn_count ≤ st.max_turns →
    (runLoopS regs ids st oracle).finished = true →
    countTurnStarts (runLoopS regs ids st oracle).events
      = st.max_turns - st.turn_count ∧
    countAgentResponses (runLoopS regs ids st oracle).events
      ≤ st.max_turns - st.turn_count := by
  induction regs with
  | nil =>
    intro ids st oracle _ _ hfin
    simp [runLoopS_nil] at hfin
  | cons reg regs ih =>
    intro ids st oracle hne hle hfin
    cases hstep : loopStep reg ids st (oracle st.turn_count) with
    | exit =>
      rw [runLoopS_cons_exit reg regs ids st oracle hstep]
      rcases loopStep_exit_inv reg ids st (oracle st.turn_count) hstep with hlt | hreg
      · have htc : st.max_turns - st.turn_count = 0 := by omega
        constructor
        · simp [countTurnStarts, Event.isTurnStart, htc]
        · simp [countAgentResponses, Event.isAgentResponse, htc]
      · exact absurd hreg (hne reg (List.mem_cons_self reg regs))
    | crash =>
      rw [runLoopS_cons_crash reg regs ids st oracle hstep] at hfin
      simp at hfin
    | retry ids' =>
      rw [runLoopS_cons_retry reg regs ids ids' st oracle hstep] at hfin ⊢
      exact ih ids' st oracle (fun r hr => hne r (List.mem_cons_of_mem reg hr)) hle hfin
    | turn st' evs =>
      obtain ⟨hlt, -, aid, a, -, -, hst', hevs⟩ :=
        loopStep_turn_inv reg ids st (oracle st.turn_count) st' evs hstep
      rw [runLoopS_cons_turn_finished reg regs ids st st' evs oracle hstep] at hfin
      rw [runLoopS_cons_turn_events reg regs ids st st' evs oracle hstep]
      have htc : st'.turn_count = st.turn_count + 1 := by
        rw [hst']; exact doTurn_turn_count a (oracle st.turn_count) st
      have hmt : st'.max_turns = st.max_turns := by
        rw [hst']; exact doTurn_max_turns a (oracle st.turn_count) st
      have hle' : st'.turn_count ≤ st'.max_turns := by omega
      have ihr := ih ids st' oracle (fun r hr => hne r (List.mem_cons_of_mem reg hr)) hle' hfin
      have h1 : countTurnStarts evs = 1 := by
        rw [hevs]; exact doTurn_countTurnStarts a (oracle st.turn_count) st
      have h2 : countAgentResponses evs ≤ 1 := by
        rw [hevs]; exact doTurn_countAgentResponses a (oracle st.turn_count) st
      rw [htc, hmt] at ihr
      constructor
      · rw [show countTurnStarts (evs ++ (runLoopS regs ids st' oracle).events)
            = countTurnStarts evs + countTurnStarts (runLoopS regs ids st' oracle).events
            from List.countP_append Event.isTurnStart evs _]
        omega
      · rw [show countAgentResponses (evs ++ (runLoopS regs ids st' oracle).events)
            = countAgentResponses evs
              + countAgentResponses (runLoopS regs ids st' oracle).events
            from List.countP_append Event.isAgentResponse evs _]
        omega

theorem runLoopS_roundRobin (regs : List Registry) : ∀ (ids : List String) (st : LoopState)
    (oracle : Nat → Option TurnMsg),
    (∀ reg ∈ regs, regWF reg = true ∧ ∀ aid ∈ ids, (dictFind aid reg).isSome = true) →
    ∀ t aid c tp, Event.turnRequest aid c t tp ∈ (runLoopS regs ids st oracle).events →
      ids[t % ids.length]? = some aid := by
  induction regs with
  | nil =>
    intro ids st oracle _ t aid c tp h
    simp [runLoopS_nil] at h
  | cons reg regs ih =>
    intro ids st oracle hh t aid c tp h
    cases hstep : loopStep reg ids st (oracle st.turn_count) with
    | exit =>
      rw [runLoopS_cons_exit reg regs ids st oracle hstep] at h
      simp at h
    | crash =>
      rw [runLoopS_cons_crash reg regs ids st oracle hstep] at h
      simp at h
    | retry ids' =>
      obtain ⟨-, -, -, aid0, hget0, hnone⟩ :=
        loopStep_retry_inv reg ids st (oracle st.turn_count) ids' hstep
      have hmem : aid0 ∈ ids := mem_of_getElemOpt hget0
      have hsome := (hh reg (List.mem_cons_self reg regs)).2 aid0 hmem
      rw [hnone] at hsome
      simp at hsome
    | turn st' evs =>
      obtain ⟨hlt, -, aid0, a, hget0, hfind0, hst', hevs⟩ :=
        loopStep_turn_inv reg ids st (oracle st.turn_count) st' evs hstep
      rw [runLoopS_cons_turn_events reg regs ids st st' evs oracle hstep] at h
      rcases List.mem_append.mp h with hin | hin
      · rw [hevs] at hin
        obtain ⟨haid, -, ht, -⟩ :=
          doTurn_turnRequest_inv a (oracle st.turn_count) st aid c t tp hin
        have hids : a.profile.id = aid0 :=
          regWF_id_eq reg aid0 a (hh reg (List.mem_cons_self reg regs)).1 hfind0
        rw [ht, haid, hids]
        exact hget0
      · exact ih ids st' oracle (fun r hr => hh r (List.mem_cons_of_mem reg hr)) t aid c tp hin

theorem runLoopS_context (regs : List Registry) : ∀ (ids : List String) (st : LoopState)
    (oracle : Nat → Option TurnMsg) (topic : String),
    st.topic = topic →
    st.current_context = contextBefore topic oracle st.turn_count →
    ∀ t aid c tp, Event.turnRequest aid c t tp ∈ (runLoopS regs ids st oracle).events →
      c = contextBefore topic oracle t ∧ tp = (if t = 0 then some topic else none) := by
  induction regs with
  | nil =>
    intro ids st oracle topic _ _ t aid c tp h
    simp [runLoopS_nil] at h
  | cons reg regs ih =>
    intro ids st oracle topic htop hctx t aid c tp h
    cases hstep : loopStep reg ids st (oracle st.turn_count) with
    | exit =>
      rw [runLoopS_cons_exit reg regs ids st oracle hstep] at h
      simp at h
    | crash =>
      rw [runLoopS_cons_crash reg regs ids st oracle hstep] at h
      simp at h
    | retry ids' =>
      rw [runLoopS_cons_retry reg regs ids ids' st oracle hstep] at h
      exact ih ids' st oracle topic htop hctx t aid c tp h
    | turn st' evs =>
      obtain ⟨hlt, -, aid0, a, hget0, hfind0, hst', hevs⟩ :=
        loopStep_turn_inv reg ids st (oracle st.turn_count) st' evs hstep
      rw [runLoopS_cons_turn_events reg regs ids st st' evs oracle hstep] at h
      rcases List.mem_append.mp h with hin | hin
      · rw [hevs] at hin
        obtain ⟨-, hc, ht, htp⟩ :=
          doTurn_turnRequest_inv a (oracle st.turn_count) st aid c t tp hin
        subst ht
        exact ⟨by rw [hc, hctx], by rw [htp, htop]⟩
      · have htop' : st'.topic = topic := by
          rw [hst', doTurn_topic]; exact htop
        have hctx' : st'.current_context = contextBefore topic oracle st'.turn_count := by
          rw [hst', doTurn_turn_count]
          exact doTurn_context_update a st topic oracle hctx
        exact ih ids st' oracle topic htop' hctx' t aid c tp hin

theorem runLoopS_audio_sound (regs : List Registry) : ∀ (ids : List String) (st : LoopState)
    (oracle : Nat → Option TurnMsg) (p : Profile) (au : String) (sz tn : Nat),
    Event.agentAudio p au sz tn ∈ (runLoopS regs ids st oracle).events →
    1 ≤ tn ∧ ∃ m, oracle (tn - 1) = some m ∧ m.rtype = "turn_response" ∧
      ¬ m.audio = "" ∧ au = m.audio ∧ sz = m.audio.length ∧
      ∃ p2, Event.agentResponse p2 m.text tn ∈ (runLoopS regs ids st oracle).events := by
  induction regs with
  | nil =>
    intro ids st oracle p au sz tn h
    simp [runLoopS_nil] at h
  | cons reg regs ih =>
    intro ids st oracle p au sz tn h
    cases hstep : loopStep reg ids st (oracle st.turn_count) with
    | exit =>
      rw [runLoopS_cons_exit reg regs ids st oracle hstep] at h
      simp at h
    | crash =>
      rw [runLoopS_cons_crash reg regs ids st oracle hstep] at h
      simp at h
    | retry ids' =>
      rw [runLoopS_cons_retry reg regs ids ids' st oracle hstep] at h ⊢
      exact ih ids' st oracle p au sz tn h
    | turn st' evs =>
      obtain ⟨hlt, -, aid0, a, hget0, hfind0, hst', hevs⟩ :=
        loopStep_turn_inv reg ids st (oracle st.turn_count) st' evs hstep
      rw [runLoopS_cons_turn_events reg regs ids st st' evs oracle hstep] at h ⊢
      rcases List.mem_append.mp h with hin | hin
      · rw [hevs] at hin
        obtain ⟨htn, m, hm, hr, ha, -, hau, hsz, hresp⟩ :=
          doTurn_agentAudio_inv a (oracle st.turn_count) st p au sz tn hin
        refine ⟨by omega, m, ?_, hr, ha, hau, hsz, a.profile, ?_⟩
        · rw [show tn - 1 = st.turn_count from by omega, hm]
        · apply List.mem_append_left
          rw [hevs, htn]
          exact hresp
      · obtain ⟨h1, m, hm, hr, ha, hau, hsz, p2, hresp⟩ :=
          ih ids st' oracle p au sz tn hin
        exact ⟨h1, m, hm, hr, ha, hau, hsz, p2, List.mem_append_right evs hresp⟩

theorem runLoopS_audio_complete (regs : List Registry) : ∀ (ids : List String)
    (st : LoopState) (oracle : Nat → Option TurnMsg),
    (∀ reg ∈ regs, reg ≠ []) →
    (runLoopS regs ids st oracle).finished = true →
    ∀ t m, st.turn_count ≤ t → t < st.max_turns → oracle t = some m →
      m.rtype = "turn_response" → ¬ m.audio = "" →
      ∃ p, Event.agentAudio p m.audio m.audio.length (t + 1)
        ∈ (runLoopS regs ids st oracle).events := by
  induction regs with
  | nil =>
    intro ids st oracle _ hfin
    simp [runLoopS_nil] at hfin
  | cons reg regs ih =>
    intro ids st oracle hne hfin t m hge hltt ho hr ha
    cases hstep : loopStep reg ids st (oracle st.turn_count) with
    | exit =>
      rcases loopStep_exit_inv reg ids st (oracle st.turn_count) hstep with hlt | hreg
      · omega
      · exact absurd hreg (hne reg (List.mem_cons_self reg regs))
    | crash =>
      rw [runLoopS_cons_crash reg regs ids st oracle hstep] at hfin
      simp at hfin
    | retry ids' =>
      rw [runLoopS_cons_retry reg regs ids ids' st oracle hstep] at hfin ⊢
      exact ih ids' st oracle (fun r hr => hne r (List.mem_cons_of_mem reg hr)) hfin
        t m hge hltt ho hr ha
    | turn st' evs =>
      obtain ⟨hlt, -, aid0, a, hget0, hfind0, hst', hevs⟩ :=
        loopStep_turn_inv reg ids st (oracle st.turn_count) st' evs hstep
      rw [runLoopS_cons_turn_finished reg regs ids st st' evs oracle hstep] at hfin
      rw [runLoopS_cons_turn_events reg regs ids st st' evs oracle hstep]
      have htc : st'.turn_count = st.turn_count + 1 := by
        rw [hst']; exact doTurn_turn_count a (oracle st.turn_count) st
      have hmt : st'.max_turns = st.max_turns := by
        rw [hst']; exact doTurn_max_turns a (oracle st.turn_count) st
      by_cases het : t = st.turn_count
      · subst het
        refine ⟨a.profile, List.mem_append_left _ ?_⟩
        rw [hevs, ho]
        exact doTurn_emits_audio a m st hr ha
      · obtain ⟨p, hp⟩ :=
          ih ids st' oracle (fun r hr2 => hne r (List.mem_cons_of_mem reg hr2)) hfin
            t m (by omega) (by omega) ho hr ha
        exact ⟨p, List.mem_append_right evs hp⟩

/-! Claim theorems. -/

/-- C1: the claim demands that removing a participant mid-wait resolves the
turn wait via an Abandoned signal well before the 60-second timeout; the
code instead keeps awaiting the orphaned queue object for the full timeout.
Concretely, with no response and the removal at time 0, the wait resolves
as a timeout at time 60; and no input whatsoever produces an abandoned
resolution. -/
theorem C1_removal_does_not_unblock :
    waitForTurn none (some 0) = (WaitResult.timedOut, TURN_TIMEOUT) ∧
    TURN_TIMEOUT = 60 ∧
    (∀ putAt removedAt, (waitForTurn putAt removedAt).1 = WaitResult.timedOut ∨
       ∃ m, (waitForTurn putAt removedAt).1 = WaitResult.response m) := by
  refine ⟨rfl, rfl, ?_⟩
  intro putAt removedAt
  rcases putAt with _ | ⟨t, m⟩
  · exact Or.inl rfl
  · rcases removedAt with _ | r
    · by_cases h : t ≤ TURN_TIMEOUT
      · exact Or.inr ⟨m, by simp [waitForTurn, h]⟩
      · exact Or.inl (by simp [waitForTurn, h])
    · by_cases h : t ≤ TURN_TIMEOUT ∧ t < r
      · exact Or.inr ⟨m, by simp [waitForTurn, h]⟩
      · exact Or.inl (by simp [waitForTurn, h])

/-- C2: in a session in which every participant of the start snapshot
remains registered (no disconnect touching the snapshot), the recipient of
the turn_request of turn t is the id at position t mod N of the snapshot,
where N is the snapshot size; and when the selected id has disconnected,
the iteration recomputes the order from the registry and continues with
the same state, in particular without incrementing the turn counter and
without emitting any event. -/
theorem C2_round_robin :
    (∀ (regs : List Registry) (ids : List String) (st : LoopState)
       (oracle : Nat → Option TurnMsg),
       (∀ reg ∈ regs, regWF reg = true ∧ ∀ aid ∈ ids, (dictFind aid reg).isSome = true) →
       ∀ t aid c tp, Event.turnRequest aid c t tp ∈ (runLoopS regs ids st oracle).events →
         ids[t % ids.length]? = some aid) ∧
    (∀ (reg : Registry) (regs : List Registry) (ids : List String) (st : LoopState)
       (oracle : Nat → Option TurnMsg) (aid : String),
       st.turn_count < st.max_turns → reg ≠ [] →
       ids[st.turn_count % ids.length]? = some aid → dictFind aid reg = none →
       runLoopS (reg :: regs) ids st oracle = runLoopS regs (dictKeys reg) st oracle) := by
  constructor
  · exact runLoopS_roundRobin
  · intro reg regs ids st oracle aid hlt hne hget hfind
    apply runLoopS_cons_retry
    simp [loopStep, hlt, hne, hget, hfind]

/-- Witness for C2 at concrete inputs: in the two-agent run the turn-1
request goes to the id at position 1 mod 2 of the snapshot, and a stale
snapshot pointing at a departed id causes a recompute without progress. -/
theorem C2_round_robin_witness :
    (dictKeys regW)[1 % (dictKeys regW).length]? = some "b" ∧
    runLoopS ([("b", agentB)] :: []) ["a"] (initialLoopState "T" 1) oracleW
      = runLoopS [] (dictKeys [("b", agentB)]) (initialLoopState "T" 1) oracleW := by
  constructor
  · exact C2_round_robin.1 (List.replicate 3 regW) (dictKeys regW) (initialLoopState "T" 2)
      oracleW (by decide) 1 "b" "hello" none (by decide)
  · exact C2_round_robin.2 [("b", agentB)] [] ["a"] (initialLoopState "T" 1) oracleW "a"
      (by decide) (by decide) (by decide) (by decide)

/-- C3: the claim demands that a start received while a session is Active
is a no-op, that no second concurrent loop is ever created, no second
conversation_start broadcast, and that the phase never goes Active to
Active.  The guard at line 185 does hold when the flag is already set at
the moment the frame is processed: the first two conjuncts evaluate the
handler on a concrete Active state and show that nothing is scheduled and
nothing emitted.  But create_task only schedules the loop task and
conversation_active is set only when that task first runs (line 254), so
two start frames processed back-to-back both observe the flag false: on
the double-start schedule the handler schedules two loops; after the
first prologue the state is Active with the second loop still pending,
the second prologue then runs out of the Active state, and in total two
conversation_start broadcasts are emitted and two loops run
concurrently. -/
theorem C3_double_start_races :
    (sysStep sysW (SysAction.recvStart reqW)).1.pendingLoops = 0 ∧
    (sysStep sysW (SysAction.recvStart reqW)).2 = [] ∧
    (sysRun sysIdle (List.take 3 doubleStartTrace)).1.conversation_active = true ∧
    (sysRun sysIdle (List.take 3 doubleStartTrace)).1.pendingLoops = 1 ∧
    countConversationStarts (sysRun sysIdle doubleStartTrace).2 = 2 ∧
    (sysRun sysIdle doubleStartTrace).1.runningLoops = 2 := by
  decide

/-- C4: a session over a schedule of never-empty registries that runs to
completion from a fresh loop state emits exactly M turn_start broadcasts
and at most M agent_response broadcasts, the latter never exceeding the
former. -/
theorem C4_turn_event_counts (regs : List Registry) (ids : List String) (topic : String)
    (M : Nat) (oracle : Nat → Option TurnMsg)
    (hne : ∀ reg ∈ regs, reg ≠ [])
    (hfin : (runLoopS regs ids (initialLoopState topic M) oracle).finished = true) :
    countTurnStarts (runLoopS regs ids (initialLoopState topic M) oracle).events = M ∧
    countAgentResponses (runLoopS regs ids (initialLoopState topic M) oracle).events
      ≤ countTurnStarts (runLoopS regs ids (initialLoopState topic M) oracle).events := by
  have h := runLoopS_counts regs ids (initialLoopState topic M) oracle hne
    (by simp [initialLoopState]) hfin
  have h1 : countTurnStarts (runLoopS regs ids (initialLoopState topic M) oracle).events
      = M := by
    have := h.1
    simpa [initialLoopState] using this
  have h2 : countAgentResponses (runLoopS regs ids (initialLoopState topic M) oracle).events
      ≤ M := by
    have := h.2
    simpa [initialLoopState] using this
  exact ⟨h1, by omega⟩

/-- Witness for C4: the concrete two-agent two-turn session emits exactly
two turn_start events and no more agent_response events than that. -/
theorem C4_turn_event_counts_witness :
    countTurnStarts (runLoopS (List.replicate 3 regW) (dictKeys regW)
      (initialLoopState "T" 2) oracleW).events = 2 ∧
    countAgentResponses (runLoopS (List.replicate 3 regW) (dictKeys regW)
      (initialLoopState "T" 2) oracleW).events
      ≤ countTurnStarts (runLoopS (List.replicate 3 regW) (dictKeys regW)
          (initialLoopState "T" 2) oracleW).events :=
  C4_turn_event_counts (List.replicate 3 regW) (dictKeys regW) "T" 2 oracleW
    (by decide) (by decide)

/-- Counterexample to C5 as stated: two connections of the same identity
register in turn, the second replacing the first in the registry, and then
the teardown of the OLD connection runs; afterwards the registry and the
queue map hold no entry for that id at all, not the new record the claim
promises. -/
theorem C5_counterexample :
    dictFind "x" (addParticipant (addParticipant regState0 connOldX) connNewX).agents
      = some connNewX ∧
    dictFind "x" (teardownParticipant
      (addParticipant (addParticipant regState0 connOldX) connNewX) connOldX).agents
      = none ∧
    dictFind "x" (teardownParticipant
      (addParticipant (addParticipant regState0 connOldX) connNewX) connOldX).queues
      = none := by
  decide

/-- C5 amended: at most one live record per id holds at all times
(registration and teardown preserve key uniqueness) and registration with
an existing id replaces the prior record; however, once the replaced
connection tears down, the registry and queue map hold no record at all
under that id, because the teardown deletes by id whichever record is
stored there. -/
theorem C5_registry_replacement_amended (s : RegState) (aOld aNew : ConnectedAgent)
    (hid : aOld.id = aNew.id)
    (hnd : (dictKeys s.agents).Nodup) (hndq : (dictKeys s.queues).Nodup) :
    dictFind aNew.id (addParticipant s aNew).agents = some aNew ∧
    (dictKeys (addParticipant s aNew).agents).Nodup ∧
    (dictKeys (teardownParticipant
      (addParticipant (addParticipant s aOld) aNew) aOld).agents).Nodup ∧
    dictFind aNew.id (teardownParticipant
      (addParticipant (addParticipant s aOld) aNew) aOld).agents = none ∧
    dictFind aNew.id (teardownParticipant
      (addParticipant (addParticipant s aOld) aNew) aOld).queues = none := by
  have hfa : dictFind aNew.id (addParticipant (addParticipant s aOld) aNew).agents
      = some aNew := dictFind_insert_self aNew.id aNew _
  have hfq : dictFind aNew.id (addParticipant (addParticipant s aOld) aNew).queues
      = some (AQueue.mk []) :=
    dictFind_insert_self aNew.id (AQueue.mk []) (addParticipant s aOld).queues
  have hnd2 : (dictKeys (addParticipant (addParticipant s aOld) aNew).agents).Nodup :=
    nodup_dictKeys_insert _ _ _ (nodup_dictKeys_insert _ _ _ hnd)
  have hndq2 : (dictKeys (addParticipant (addParticipant s aOld) aNew).queues).Nodup :=
    nodup_dictKeys_insert _ _ _ (nodup_dictKeys_insert _ _ _ hndq)
  have hcond : (dictFind aOld.id
      (addParticipant (addParticipant s aOld) aNew).agents).isSome = true := by
    rw [hid, hfa]; rfl
  have hcondq : (dictFind aOld.id
      (addParticipant (addParticipant s aOld) aNew).queues).isSome = true := by
    rw [hid, hfq]; rfl
  have hagents : (teardownParticipant
      (addParticipant (addParticipant s aOld) aNew) aOld).agents
      = dictErase aOld.id (addParticipant (addParticipant s aOld) aNew).agents := by
    simp [teardownParticipant, hcond]
  have hqueues : (teardownParticipant
      (addParticipant (addParticipant s aOld) aNew) aOld).queues
      = dictErase aOld.id (addParticipant (addParticipant s aOld) aNew).queues := by
    simp [teardownParticipant, hcondq]
  refine ⟨dictFind_insert_self aNew.id aNew s.agents,
    nodup_dictKeys_insert _ _ _ hnd, ?_, ?_, ?_⟩
  · rw [hagents]
    exact nodup_dictKeys_erase _ _ hnd2
  · rw [hagents, ← hid]
    exact dictFind_erase_self _ _ hnd2
  · rw [hqueues, ← hid]
    exact dictFind_erase_self _ _ hndq2

/-- Witness for C5 amended at the concrete reconnect scenario. -/
theorem C5_registry_replacement_amended_witness :
    dictFind connNewX.id (addParticipant regState0 connNewX).agents = some connNewX ∧
    (dictKeys (addParticipant regState0 connNewX).agents).Nodup ∧
    (dictKeys (teardownParticipant
      (addParticipant (addParticipant regState0 connOldX) connNewX) connOldX).agents).Nodup ∧
    dictFind connNewX.id (teardownParticipant
      (addParticipant (addParticipant regState0 connOldX) connNewX) connOldX).agents = none ∧
    dictFind connNewX.id (teardownParticipant
      (addParticipant (addParticipant regState0 connOldX) connNewX) connOldX).queues = none :=
  C5_registry_replacement_amended regState0 connOldX connNewX rfl (by decide) (by decide)

/-- Counterexample to C6 as stated: the channel is an unbounded
asyncio.Queue, so a second turn_response put while one is already pending
is silently enqueued behind it (two pending responses, no error), not
rejected. -/
theorem C6_counterexample :
    dictFind "x" (handleAgentMessage
      (handleAgentMessage [("x", AQueue.mk [])] "x" msgR1) "x" msgR2)
      = some (AQueue.mk [msgR1, msgR2]) ∧
    (AQueue.mk [msgR1, msgR2]).pending = 2 := by
  decide

/-- C6 amended: each TurnChannel is an unbounded FIFO queue; a put while a
response is already pending appends the new response behind it, always
succeeds, and grows the pending count by one. -/
theorem C6_turn_channel_amended (queues : List (String × AQueue)) (aid : String)
    (m : TurnMsg) (q : AQueue) (hrt : m.rtype = "turn_response")
    (hq : dictFind aid queues = some q) :
    dictFind aid (handleAgentMessage queues aid m) = some (q.put m) ∧
    (q.put m).items = q.items ++ [m] ∧
    (q.put m).pending = q.pending + 1 := by
  refine ⟨?_, rfl, ?_⟩
  · simp [handleAgentMessage, hrt, hq, dictFind_insert_self]
  · simp [AQueue.put, AQueue.pending]

/-- Witness for C6 amended: a put onto a queue that already holds a
pending response. -/
theorem C6_turn_channel_amended_witness :
    dictFind "x" (handleAgentMessage [("x", AQueue.mk [msgR1])] "x" msgR2)
      = some ((AQueue.mk [msgR1]).put msgR2) ∧
    ((AQueue.mk [msgR1]).put msgR2).items = (AQueue.mk [msgR1]).items ++ [msgR2] ∧
    ((AQueue.mk [msgR1]).put msgR2).pending = (AQueue.mk [msgR1]).pending + 1 :=
  C6_turn_channel_amended [("x", AQueue.mk [msgR1])] "x" msgR2 (AQueue.mk [msgR1])
    rfl (by decide)

/-- C7: broadcast never raises; with no observers and no participants it
is a no-op performing zero serializations and zero sends; otherwise it
serializes exactly once and attempts a send to every current observer and
participant connection, whatever the per-connection failures are. -/
theorem C7_broadcast_isolation (frontends agentConns : List Nat) (sendOk : Nat → Bool) :
    (∃ r, broadcast frontends agentConns sendOk = Except.ok r) ∧
    (frontends = [] → agentConns = [] →
      broadcast frontends agentConns sendOk = Except.ok (0, [])) ∧
    (frontends ≠ [] ∨ agentConns ≠ [] →
      ∃ sends, broadcast frontends agentConns sendOk = Except.ok (1, sends) ∧
        sends.map Prod.fst = frontends ++ agentConns) := by
  refine ⟨?_, ?_, ?_⟩
  · unfold broadcast
    by_cases h : (frontends.isEmpty && agentConns.isEmpty) = true
    · rw [if_pos h]; exact ⟨_, rfl⟩
    · rw [if_neg h]; exact ⟨_, rfl⟩
  · intro hf ha
    subst hf; subst ha
    rfl
  · intro h
    have hcond : (frontends.isEmpty && agentConns.isEmpty) = false := by
      rcases h with h | h
      · cases frontends with
        | nil => exact absurd rfl h
        | cons x xs => rfl
      · cases agentConns with
        | nil => exact absurd rfl h
        | cons x xs => simp [List.isEmpty]
    refine ⟨(frontends.map fun c => (c, sendResult sendOk c)) ++
            (agentConns.map fun c => (c, sendResult sendOk c)), ?_, ?_⟩
    · simp [broadcast, hcond]
    · rw [List.map_append]
      have hmap : ∀ l : List Nat,
          (l.map fun c => (c, sendResult sendOk c)).map Prod.fst = l := by
        intro l
        induction l with
        | nil => rfl
        | cons x xs ih => simp [ih]
      rw [hmap, hmap]

/-- Witness for C7: one dead connection among three still leaves all three
attempted, and the empty registry does a zero-serialization no-op. -/
theorem C7_broadcast_isolation_witness :
    (∃ sends, broadcast [10, 11] [20] (fun c => !(c == 11)) = Except.ok (1, sends) ∧
       sends.map Prod.fst = [10, 11] ++ [20]) ∧
    broadcast [] [] (fun _ => true) = Except.ok (0, []) :=
  ⟨(C7_broadcast_isolation [10, 11] [20] (fun c => !(c == 11))).2.2 (Or.inl (by decide)),
   (C7_broadcast_isolation [] [] (fun _ => true)).2.1 rfl rfl⟩

/-- Counterexample to C8 as stated: on turn 0 the turn_request context is
the formatted string Topic colon space topic, not the bare topic string
the claim names. -/
theorem C8_counterexample :
    Event.turnRequest "a" ("Topic: " ++ "T") 0 (some "T")
      ∈ (runLoopS (List.replicate 2 regW) (dictKeys regW)
          (initialLoopState "T" 1) oracleW).events ∧
    (("Topic: " ++ "T") == "T") = false := by
  decide

/-- C8 amended: every turn_request of a session carries as context the
text of the most recent successful turn, or the formatted topic string
(Topic colon space topic) while no turn has succeeded yet, in particular
on turn 0; it carries the turn index; and it carries the topic only on
turn 0 (the field is null on later turns). -/
theorem C8_turn_request_contents (regs : List Registry) (ids : List String)
    (topic : String) (M : Nat) (oracle : Nat → Option TurnMsg) :
    ∀ t aid c tp, Event.turnRequest aid c t tp
        ∈ (runLoopS regs ids (initialLoopState topic M) oracle).events →
      c = contextBefore topic oracle t ∧ tp = (if t = 0 then some topic else none) :=
  runLoopS_context regs ids (initialLoopState topic M) oracle topic rfl rfl

/-- Witness for C8 amended: the turn-1 request of the concrete run carries
the turn-0 response text as context and no topic. -/
theorem C8_turn_request_contents_witness :
    "hello" = contextBefore "T" oracleW 1 ∧
    none = (if 1 = 0 then some "T" else (none : Option String)) :=
  C8_turn_request_contents (List.replicate 3 regW) (dictKeys regW) "T" 2 oracleW
    1 "b" "hello" none (by decide)

/-- C9: every agent_audio broadcast of a run comes from a successful
turn_response with a nonempty audio payload, carries exactly that payload
together with its length in audio_size, and is accompanied by a separate
agent_response broadcast of the same turn; conversely, in a completed run
every successful in-range response with a nonempty payload gets its
agent_audio broadcast; and a response with an empty payload gets none. -/
theorem C9_audio_events (regs : List Registry) (ids : List String) (st0 : LoopState)
    (oracle : Nat → Option TurnMsg) :
    (∀ p au sz tn, Event.agentAudio p au sz tn ∈ (runLoopS regs ids st0 oracle).events →
       1 ≤ tn ∧ ∃ m, oracle (tn - 1) = some m ∧ m.rtype = "turn_response" ∧
         ¬ m.audio = "" ∧ au = m.audio ∧ sz = m.audio.length ∧
         ∃ p2, Event.agentResponse p2 m.text tn ∈ (runLoopS regs ids st0 oracle).events) ∧
    ((∀ reg ∈ regs, reg ≠ []) → (runLoopS regs ids st0 oracle).finished = true →
       ∀ t m, st0.turn_count ≤ t → t < st0.max_turns → oracle t = some m →
         m.rtype = "turn_response" → ¬ m.audio = "" →
         ∃ p, Event.agentAudio p m.audio m.audio.length (t + 1)
           ∈ (runLoopS regs ids st0 oracle).events) ∧
    (∀ t m, oracle t = some m → m.audio = "" →
       ∀ p au sz, Event.agentAudio p au sz (t + 1) ∉ (runLoopS regs ids st0 oracle).events) := by
  refine ⟨runLoopS_audio_sound regs ids st0 oracle,
    runLoopS_audio_complete regs ids st0 oracle, ?_⟩
  intro t m ho ha p au sz hmem
  obtain ⟨-, m', hm', -, ha', -, -, -⟩ :=
    runLoopS_audio_sound regs ids st0 oracle p au sz (t + 1) hmem
  rw [show t + 1 - 1 = t from rfl, ho] at hm'
  injection hm' with hmm
  subst hmm
  exact ha' ha

/-- Witness for C9: the turn-0 audio broadcast exists in the concrete run. -/
theorem C9_audio_events_witness :
    ∃ p, Event.agentAudio p msgW.audio msgW.audio.length (0 + 1)
      ∈ (runLoopS (List.replicate 3 regW) (dictKeys regW)
          (initialLoopState "T" 2) oracleW).events :=
  (C9_audio_events (List.replicate 3 regW) (dictKeys regW)
      (initialLoopState "T" 2) oracleW).2.1
    (by decide) (by decide) 0 msgW (by decide) (by decide) rfl rfl (by decide)

/-- C10: a start_conversation that is rejected (Active session, or zero
participants) still overwrites topic and max_turns with the request
values before the rejection check and broadcasts no conversation_start;
and the live while-condition of the running loop is afterwards governed by
the new max_turns, so such a rejected request can change when the Active
session terminates. -/
theorem C10_rejected_start_frame_effect (s : SysState) (req : StartRequest)
    (t : String) (m : Nat)
    (hrej : s.conversation_active = true ∨ s.agents.length < 1)
    (ht : req.topic = some t) (hm : req.max_turns = some m) :
    (handleStartFrame s req).1.topic = t ∧
    (handleStartFrame s req).1.max_turns = m ∧
    (handleStartFrame s req).1.pendingLoops = s.pendingLoops ∧
    countConversationStarts (handleStartFrame s req).2 = 0 ∧
    loopGuard (handleStartFrame s req).1
      = (decide (s.turn_count < m) && !s.agents.isEmpty) := by
  rcases hrej with hact | hlen
  · by_cases h2 : s.agents.length < 1
    · simp [handleStartFrame, hact, h2, ht, hm, countConversationStarts,
        SysEvt.isConversationStart, loopGuard]
    · simp [handleStartFrame, hact, h2, ht, hm, countConversationStarts,
        SysEvt.isConversationStart, loopGuard]
  · have h1 : ¬ (1 ≤ s.agents.length) := by omega
    by_cases hact : s.conversation_active = true
    · simp [handleStartFrame, hact, hlen, ht, hm, countConversationStarts,
        SysEvt.isConversationStart, loopGuard]
    · have hactf : s.conversation_active = false := by
        cases hb : s.conversation_active
        · rfl
        · exact absurd hb hact
      simp [handleStartFrame, hactf, h1, hlen, ht, hm, countConversationStarts,
        SysEvt.isConversationStart, loopGuard]

/-- Witness for C10: an Active session at turn 5 of 20 whose guard is
still true gets a rejected request with max_turns 3, after which the live
guard is false, terminating the session early; no loop is scheduled by
the rejected request. -/
theorem C10_rejected_start_frame_effect_witness :
    loopGuard sysW = true ∧
    ((handleStartFrame sysW reqW).1.topic = "new" ∧
     (handleStartFrame sysW reqW).1.max_turns = 3 ∧
     (handleStartFrame sysW reqW).1.pendingLoops = sysW.pendingLoops ∧
     countConversationStarts (handleStartFrame sysW reqW).2 = 0 ∧
     loopGuard (handleStartFrame sysW reqW).1
       = (decide (sysW.turn_count < 3) && !sysW.agents.isEmpty)) ∧
    (decide (sysW.turn_count < 3) && !sysW.agents.isEmpty) = false :=
  ⟨by decide,
   C10_rejected_start_frame_effect sysW reqW "new" 3 (Or.inl rfl) rfl rfl,
   by decide⟩

end Orch
